import Mathlib

/-
Verification of the request/response pipeline of the `digitalocean` crate:
the tagged request builder (src/request.rs), the envelope mapping contract
(src/api/mod.rs and the per-resource modules), and the executor with its
pagination loop.  The executor bodies (DigitalOcean::get/post/put/delete/list
in lib.rs) and the method markers (method.rs) are not among the provided
sources; where a definition models such a missing piece from the design
document, its doc comment says so explicitly.
-/

namespace DOcean

/-- serde_json::Value: the JSON values carried as request and response
bodies.  Numbers are modelled as integers (no claim depends on float
payloads). -/
inductive Json where
  | null
  | bool (b : Bool)
  | num (n : Int)
  | str (s : String)
  | arr (elems : List Json)
  | obj (fields : List (String × Json))

/-- Model of the `url` crate's Url (an external collaborator): the raw
string of an absolute URL. -/
structure Url where
  raw : String
  deriving Repr, DecidableEq

/-- Whether "://" occurs in a character list. -/
def hasSchemeSep : List Char → Bool
  | ':' :: '/' :: '/' :: _ => true
  | [] => false
  | _ :: rest => hasSchemeSep rest

/-- Model of `Url::parse`: parsing succeeds exactly when the string has a
nonempty scheme followed by "://".  The repository only relies on parse
being able to fail on malformed cursor strings; the exact accepted grammar
is the external crate's business. -/
def Url.parse (s : String) : Option Url :=
  match s.toList with
  | [] => none
  | ':' :: _ => none
  | cs => if hasSchemeSep cs then some ⟨s⟩ else none

/-- Model of `Url::path_segments_mut().push(seg)`. -/
def Url.push (u : Url) (seg : String) : Url :=
  ⟨u.raw ++ "/" ++ seg⟩

/-- lib.rs ROOT_URL (the constant itself is declared outside the provided
sources; its value is the provider's API root). -/
def ROOT_URL : Url := ⟨"https://api.digitalocean.com/v2"⟩

namespace method

/-- method.rs `List`: the list marker carrying the optional result-count
limit.  Modelled from the spec: method.rs is not among the provided
sources; §3 gives List an optional non-negative limit and §4.1 makes the
default "no limit" (unbounded). -/
structure List where
  limit : Option Nat
  deriving Repr, DecidableEq

/-- method.rs `Create` marker. -/
structure Create where
  deriving Repr, DecidableEq

/-- method.rs `Get` marker. -/
structure Get where
  deriving Repr, DecidableEq

/-- method.rs `Update` marker. -/
structure Update where
  deriving Repr, DecidableEq

/-- method.rs `Delete` marker. -/
structure Delete where
  deriving Repr, DecidableEq

end method

/-- The `Method` trait bound of request.rs: every operation-kind marker has
a default value (`A::default()` in `Request::new`).  Modelled from the
spec: method.rs is not among the provided sources; §4.1 says `new` builds a
"default-initialized Operation Kind", and §4.1/§3 make List's default limit
None (unbounded). -/
class Method (A : Type) where
  default : A

instance : Method method.List := ⟨⟨none⟩⟩

instance : Method method.Create := ⟨⟨⟩⟩

instance : Method method.Get := ⟨⟨⟩⟩

instance : Method method.Update := ⟨⟨⟩⟩

instance : Method method.Delete := ⟨⟨⟩⟩

/-- request.rs `Request<A: Method, R>`: a consuming builder holding a url,
a JSON body and the operation-kind value.  `R` is phantom (`PhantomData`),
so it appears only as a type parameter. -/
structure Request (A : Type) (R : Type) where
  url : Url
  body : Json
  method : A

/-- request.rs `Request::new`: empty (null) body, default method. -/
def Request.new (A R : Type) [Method A] (url : Url) : Request A R :=
  ⟨url, Json.null, Method.default⟩

/-- getset setter `set_url`. -/
def Request.set_url {A R : Type} (r : Request A R) (u : Url) : Request A R :=
  { r with url := u }

/-- getset setter `set_body`. -/
def Request.set_body {A R : Type} (r : Request A R) (b : Json) : Request A R :=
  { r with body := b }

/-- request.rs `Request::transmute`: re-tag to a new (kind, result) pair,
building a fresh request at the same url and carrying the body over. -/
def Request.transmute {A R : Type} (C D : Type) [Method C] (r : Request A R) :
    Request C D :=
  Request.set_body (Request.new C D r.url) r.body

/-- request.rs `Request::<List, V>::limit`: overwrite the limit stored in
the List marker (`self.method.0 = limit`). -/
def Request.limit {V : Type} (r : Request method.List V) (l : Option Nat) :
    Request method.List V :=
  { r with method := ⟨l⟩ }

/-- serde: look a field up in a JSON object (None on a non-object or a
missing key). -/
def Json.getField (j : Json) (key : String) : Option Json :=
  match j with
  | .obj fields => fields.lookup key
  | _ => none

/-- serde: a JSON value as a string. -/
def Json.asString : Json → Option String
  | .str s => some s
  | _ => none

/-- api/mod.rs `url_option_serde::deserialize` combined with serde's
handling of an `Option<String>` field value: null gives None, a string must
parse as a URL (a parse failure is a deserialization error, not None), any
other shape is a type error. -/
def url_option_serde.deserialize (j : Json) : Except String (Option Url) :=
  match j with
  | .null => .ok none
  | .str s =>
    match Url.parse s with
    | some u => .ok (some u)
    | none => .error "relative URL without a base"
  | _ => .error "invalid type"

/-- api/mod.rs `ApiPages`: the four optional cursor URLs. -/
structure ApiPages where
  prev : Option Url
  first : Option Url
  next : Option Url
  last : Option Url
  deriving Repr, DecidableEq

/-- api/mod.rs `ApiLinks`. -/
structure ApiLinks where
  pages : Option ApiPages
  deriving Repr, DecidableEq

/-- api/mod.rs `ApiLinks::next`. -/
def ApiLinks.next (l : ApiLinks) : Option Url :=
  match l.pages with
  | some pages => pages.next
  | none => none

/-- api/mod.rs `ApiMeta`. -/
structure ApiMeta where
  total : Nat
  deriving Repr, DecidableEq

/-- serde deserialization of one ApiPages field: `#[serde(with =
"url_option_serde", default)]` — a missing field defaults to None, a
present one goes through url_option_serde. -/
def ApiPages.field (j : Json) (key : String) : Except String (Option Url) :=
  match j.getField key with
  | none => .ok none
  | some v => url_option_serde.deserialize v

/-- serde deserialization of api/mod.rs `ApiPages` from JSON. -/
def ApiPages.fromJson (j : Json) : Except String ApiPages :=
  match j with
  | .obj _ =>
    match ApiPages.field j "prev", ApiPages.field j "first",
          ApiPages.field j "next", ApiPages.field j "last" with
    | .ok p, .ok f, .ok n, .ok l => .ok ⟨p, f, n, l⟩
    | .error e, _, _, _ => .error e
    | _, .error e, _, _ => .error e
    | _, _, .error e, _ => .error e
    | _, _, _, .error e => .error e
  | _ => .error "invalid type"

/-- serde deserialization of api/mod.rs `ApiLinks` from JSON: the
`pages: Option<ApiPages>` field is None when missing or null, and otherwise
must deserialize as ApiPages (errors propagate). -/
def ApiLinks.fromJson (j : Json) : Except String ApiLinks :=
  match j with
  | .obj _ =>
    match j.getField "pages" with
    | none => .ok ⟨none⟩
    | some .null => .ok ⟨none⟩
    | some pj =>
      match ApiPages.fromJson pj with
      | .ok p => .ok ⟨some p⟩
      | .error e => .error e
  | _ => .error "invalid type"

/-- serde deserialization of api/mod.rs `ApiMeta` from JSON. -/
def ApiMeta.fromJson (j : Json) : Except String ApiMeta :=
  match j.getField "total" with
  | some (.num n) => if n < 0 then .error "invalid value" else .ok ⟨n.toNat⟩
  | _ => .error "missing field total"

/-- api/tag.rs `Tag`: a name and an opaque resources JSON value. -/
structure Tag where
  name : String
  resources : Json

/-- serde deserialization of `Tag` from JSON. -/
def Tag.fromJson (j : Json) : Except String Tag :=
  match j.getField "name", j.getField "resources" with
  | some (.str n), some r => .ok ⟨n, r⟩
  | _, _ => .error "bad tag"

/-- serde serialization of `Tag`. -/
def Tag.toJson (t : Tag) : Json :=
  .obj [("name", .str t.name), ("resources", t.resources)]

/-- api/tag.rs `TagResponse`: the singular envelope around one Tag. -/
structure TagResponse where
  tag : Tag

/-- api/tag.rs `HasValue for TagResponse`: unwrap the singular envelope. -/
def TagResponse.value (r : TagResponse) : Tag :=
  r.tag

/-- serde deserialization of `TagResponse` from JSON. -/
def TagResponse.fromJson (j : Json) : Except String TagResponse :=
  match j.getField "tag" with
  | some tj =>
    match Tag.fromJson tj with
    | .ok t => .ok ⟨t⟩
    | .error e => .error e
  | none => .error "missing field tag"

/-- serde deserialization of a JSON array of Tags. -/
def Tag.fromJsonList : List Json → Except String (List Tag)
  | [] => .ok []
  | j :: rest =>
    match Tag.fromJson j, Tag.fromJsonList rest with
    | .ok t, .ok ts => .ok (t :: ts)
    | .error e, _ => .error e
    | _, .error e => .error e

/-- api/tag.rs `TagListResponse`: the list envelope around a page of
Tags. -/
structure TagListResponse where
  tags : List Tag
  links : ApiLinks
  meta : ApiMeta

/-- api/tag.rs `HasValue for TagListResponse`. -/
def TagListResponse.value (r : TagListResponse) : List Tag :=
  r.tags

/-- api/tag.rs `HasPagination for TagListResponse`: `self.links.next()`. -/
def TagListResponse.next_page (r : TagListResponse) : Option Url :=
  r.links.next

/-- serde deserialization of `TagListResponse` from JSON; a malformed
`links.pages.next` URL surfaces here as a deserialization error. -/
def TagListResponse.fromJson (j : Json) : Except String TagListResponse :=
  match j.getField "tags", j.getField "links", j.getField "meta" with
  | some (.arr tjs), some lj, some mj =>
    (match Tag.fromJsonList tjs, ApiLinks.fromJson lj, ApiMeta.fromJson mj with
     | .ok ts, .ok links, .ok meta => .ok ⟨ts, links, meta⟩
     | .error e, _, _ => .error e
     | _, .error e, _ => .error e
     | _, _, .error e => .error e)
  | _, _, _ => .error "bad list envelope"

/-- api/region.rs `Region`. -/
structure Region where
  name : String
  slug : String
  sizes : List String
  available : Bool
  features : List String
  deriving Repr, DecidableEq

/-- Stand-in for the wire scalar `f32` (an external concern: no claim
depends on float arithmetic, only on values being carried through). -/
structure F32 where
  bits : Nat
  deriving Repr, DecidableEq

/-- Stand-in for chrono's `DateTime<Utc>` (external collaborator). -/
structure DateTimeUtc where
  ticks : Int
  deriving Repr, DecidableEq

/-- api/volume.rs `Volume`. -/
structure Volume where
  id : String
  region : Region
  droplet_ids : List Nat
  name : String
  description : String
  size_gigabytes : F32
  created_at : DateTimeUtc

/-- api/volume.rs `VolumeResponse`: the singular envelope around one
Volume. -/
structure VolumeResponse where
  volume : Volume

/-- api/volume.rs `HasValue for VolumeResponse`: unwrap the singular
envelope. -/
def VolumeResponse.value (r : VolumeResponse) : Volume :=
  r.volume

/-- HTTP verbs the executor dispatches to (§4.2). -/
inductive Verb where
  | GET
  | POST
  | PUT
  | DELETE
  deriving Repr, DecidableEq

/-- One network call as issued by the executor: verb, url, and the JSON
body sent (none when the body is ignored for that verb). -/
structure Call where
  verb : Verb
  url : Url
  body : Option Json

/-- What the transport collaborator (§6) answers to one call: a transport
failure, or a status code with a response body. -/
inductive TransportResult where
  | fail (msg : String)
  | ok (status : Nat) (body : Json)

/-- The transport collaborator: deterministic per (verb, url, body), as §5
assumes a deterministic provider. -/
def Transport : Type :=
  Verb → Url → Option Json → TransportResult

/-- The error kinds of §7: transport failure, non-success status,
structural deserialization failure (which includes a malformed pagination
cursor, since the cursor is parsed while deserializing the envelope), and —
an artifact of the fuel-bounded model of the loop, not of the source — a
marker for a cursor walk longer than the supplied fuel. -/
inductive Error where
  | transport (msg : String)
  | status (code : Nat) (body : Json)
  | json (msg : String)
  | outOfFuel

/-- One page of a list response after envelope unwrapping: the page's
values (HasValue) and the next-page cursor (HasPagination). -/
structure Page (V : Type) where
  values : List V
  next : Option Url

/-- Modelled from the spec: steps 1–2 of the Pagination Loop (§4.3), i.e.
one fetch of the executor whose body lives in lib.rs (not among the
provided sources): GET the current URL with no body, fail fast on a
transport error or a non-2xx status, then deserialize and unwrap through
the envelope mapping `parse`. -/
def fetchPage {V : Type} (t : Transport) (parse : Json → Except Error (Page V))
    (u : Url) : Except Error (Page V) :=
  match t .GET u none with
  | .fail msg => .error (.transport msg)
  | .ok code body =>
    if 200 ≤ code ∧ code < 300 then parse body
    else .error (.status code body)

/-- Modelled from the spec: the Pagination Loop of §4.3 (the body of
`DigitalOcean::list` in lib.rs, not among the provided sources).  `fuel`
bounds the number of iterations so the definition is total; exhausting it
yields the model-only Error.outOfFuel (the source runs without such a bound
— the §9 open question).  Besides the result, the list of network calls
issued is returned, in order. -/
def list_loop {V : Type} (t : Transport) (parse : Json → Except Error (Page V)) :
    Nat → Url → Option Nat → List V → Except Error (List V) × List Call
  | 0, _, _, _ => (.error .outOfFuel, [])
  | fuel + 1, u, remaining, acc =>
    match fetchPage t parse u with
    | .error e => (.error e, [⟨.GET, u, none⟩])
    | .ok page =>
      let appended := match remaining with
        | none => page.values
        | some r => page.values.take r
      let acc2 := acc ++ appended
      let rem2 := remaining.map (fun r => r - appended.length)
      if rem2 = some 0 then (.ok acc2, [⟨.GET, u, none⟩])
      else
        match page.next with
        | some u2 =>
          let rest := list_loop t parse fuel u2 rem2 acc2
          (rest.1, ⟨.GET, u, none⟩ :: rest.2)
        | none => (.ok acc2, [⟨.GET, u, none⟩])

/-- Modelled from the spec: `Executable<Vec<V>> for Request<List, Vec<V>>`
delegates to the Pagination Loop, starting from the request's URL with an
empty accumulator and `remaining` initialized from the request's limit
(§4.3). -/
def Request.execute_list {V : Type} (r : Request method.List (List V))
    (t : Transport) (parse : Json → Except Error (Page V)) (fuel : Nat) :
    Except Error (List V) × List Call :=
  list_loop t parse fuel r.url r.method.limit []

/-- Modelled from the spec: `Executable<()> for Request<Delete, ()>`
(`DigitalOcean::delete`, lib.rs not among the provided sources): one DELETE
call to the request's URL with the body ignored (§4.2), failing fast on a
transport error or a non-2xx status and yielding the unit value on
success. -/
def Request.execute_delete (r : Request method.Delete Unit) (t : Transport) :
    Except Error Unit × List Call :=
  (match t .DELETE r.url none with
   | .fail msg => .error (.transport msg)
   | .ok code body =>
     if 200 ≤ code ∧ code < 300 then .ok ()
     else .error (.status code body),
   [⟨.DELETE, r.url, none⟩])

/-- The envelope mapping for `Vec<Tag>` (api/tag.rs `TagListResponse`):
deserialize the list envelope, then extract the value (HasValue) and the
pagination metadata (HasPagination). -/
def parsePageTag (j : Json) : Except Error (Page Tag) :=
  match TagListResponse.fromJson j with
  | .ok r => .ok ⟨r.value, r.next_page⟩
  | .error msg => .error (.json msg)

/-- A provider whose pages form a finite cursor chain: entry i carries the
URL of page i and the page fetched there, and each page's `next` cursor is
the URL of the following entry. -/
def isChain {V : Type} (t : Transport) (parse : Json → Except Error (Page V)) :
    List (Url × Page V) → Prop
  | [] => True
  | (u, p) :: rest =>
    fetchPage t parse u = .ok p ∧
    (match rest with
     | [] => True
     | (u2, _) :: _ => p.next = some u2) ∧
    isChain t parse rest

/-- The `next` cursor of the last page of a chain (none for an empty
chain). -/
def lastNext {V : Type} : List (Url × Page V) → Option Url
  | [] => none
  | [(_, p)] => p.next
  | _ :: rest => lastNext rest

/-- All values of a chain, in page order and within-page order. -/
def chainValues {V : Type} (c : List (Url × Page V)) : List V :=
  (c.map (fun e => e.2.values)).flatten

/-- The GET calls fetching each page of a chain once, in page order. -/
def chainCalls {V : Type} (c : List (Url × Page V)) : List Call :=
  c.map (fun e => ⟨.GET, e.1, none⟩)

/-- How many pages of a chain the loop fetches before a limit of n is
exhausted (all of them when the chain runs out first). -/
def pagesNeeded {V : Type} (n : Nat) : List (Url × Page V) → Nat
  | [] => 0
  | e :: rest =>
    if n ≤ e.2.values.length then 1
    else pagesNeeded (n - e.2.values.length) rest + 1

/-- A successful cursor chain from `u` whose last page's `next` cursor is
`ubad` (the chain may be empty, in which case `u = ubad`). -/
def chainTo {V : Type} (t : Transport) (parse : Json → Except Error (Page V)) :
    Url → List (Url × Page V) → Url → Prop
  | u, [], ubad => u = ubad
  | u, (u1, p) :: rest, ubad =>
    u = u1 ∧ fetchPage t parse u1 = .ok p ∧
    ∃ u2, p.next = some u2 ∧ chainTo t parse u2 rest ubad

/-- The builder operations available on an already-constructed List
request: the getset setters of request.rs and `Request::<List, V>::limit`
(`transmute` is a re-tag, which the lifecycle sentence treats separately). -/
inductive BuilderOp where
  | set_url (u : Url)
  | set_body (b : Json)
  | limit (l : Option Nat)

/-- Apply one builder operation. -/
def applyOp {V : Type} (r : Request method.List V) : BuilderOp → Request method.List V
  | .set_url u => r.set_url u
  | .set_body b => r.set_body b
  | .limit l => r.limit l

/-- Apply a chain of builder operations left to right. -/
def applyOps {V : Type} (r : Request method.List V) (ops : List BuilderOp) :
    Request method.List V :=
  ops.foldl applyOp r

/-- The argument of the last `limit` operation in a chain, or the starting
limit when the chain has none. -/
def lastLimit : Option Nat → List BuilderOp → Option Nat
  | dflt, [] => dflt
  | _, .limit l :: rest => lastLimit l rest
  | dflt, _ :: rest => lastLimit dflt rest

/-- The operation kinds, reified as runtime values (in the source they are
the marker types of method.rs). -/
inductive Kind where
  | List
  | Create
  | Get
  | Update
  | Delete
  deriving Repr, DecidableEq

/-- The shape of a result type as the executor dispatch sees it: the unit
type, a scalar resource, or a vector of a resource. -/
inductive ResultTy where
  | unit
  | scalar (resource : String)
  | vec (resource : String)
  deriving Repr, DecidableEq

/-- Reification of an operation-kind marker type to a Kind value. -/
class ReifyKind (A : Type) where
  kind : Kind

instance : ReifyKind method.List := ⟨.List⟩

instance : ReifyKind method.Create := ⟨.Create⟩

instance : ReifyKind method.Get := ⟨.Get⟩

instance : ReifyKind method.Update := ⟨.Update⟩

instance : ReifyKind method.Delete := ⟨.Delete⟩

/-- Reification of a result type to its dispatch shape. -/
class ReifyResult (R : Type) where
  ty : ResultTy

instance : ReifyResult Unit := ⟨.unit⟩

instance : ReifyResult Tag := ⟨.scalar "Tag"⟩

instance : ReifyResult (List Tag) := ⟨.vec "Tag"⟩

instance : ReifyResult Volume := ⟨.scalar "Volume"⟩

instance : ReifyResult (List Volume) := ⟨.vec "Volume"⟩

/-- The (Kind, ResultTy) pair a request is tagged with. -/
def requestTag (A R : Type) [ReifyKind A] [ReifyResult R]
    (_ : Request A R) : Kind × ResultTy :=
  (ReifyKind.kind A, ReifyResult.ty R)

/-- Which result-type shapes implement `HasResponse` in the provided api
modules: () (api/mod.rs), Tag and Vec<Tag> (api/tag.rs), Volume and
Vec<Volume> (api/volume.rs), FloatingIp and Vec<FloatingIp>
(api/floating_ip.rs), CustomImage only as a scalar (api/custom_image.rs),
DomainRecord and Vec<DomainRecord> (api/domain_record.rs), Region and Size
only as vectors (api/region.rs, api/size.rs). -/
def hasResponse : ResultTy → Bool
  | .unit => true
  | .scalar n =>
    ["Tag", "Volume", "FloatingIp", "CustomImage", "DomainRecord"].contains n
  | .vec n =>
    ["Tag", "Volume", "FloatingIp", "DomainRecord", "Region", "Size"].contains n

/-- Whether the declared `HasResponse::Response` envelope of a result-type
shape implements `HasPagination`: in the provided api modules only the
*ListResponse envelopes (the responses of the Vec shapes) do; every scalar
response and () are singular. -/
def responsePaginated : ResultTy → Bool
  | .vec n =>
    ["Tag", "Volume", "FloatingIp", "DomainRecord", "Region", "Size"].contains n
  | _ => false

/-- The `Executable` impls of request.rs, reified: which (Kind, ResultTy)
pairs have an execute rule.  The List rule exists only at Vec shapes whose
declared response envelope is paginated; Create/Update/Get need
HasResponse; Delete exists only at (). -/
def executable : Kind → ResultTy → Bool
  | .List, r =>
    (match r with
     | .vec _ => true
     | _ => false) && hasResponse r && responsePaginated r
  | .Create, r => hasResponse r
  | .Update, r => hasResponse r
  | .Get, r => hasResponse r
  | .Delete, r =>
    match r with
    | .unit => true
    | _ => false

/-- api/tag.rs `Tag::list`: note the result type parameter is `Tag`, not
`Vec<Tag>` (the request is `TagRequest<List, Tag>`). -/
def Tag.list : Request method.List Tag :=
  Request.new method.List Tag (ROOT_URL.push "tags")

/-- Fixture: the URL of page 1 of the three-page provider of §8. -/
def urlP1 : Url := ⟨"https://api.example.com/v2/widgets?page=1"⟩

/-- Fixture: the URL of page 2 of the three-page provider. -/
def urlP2 : Url := ⟨"https://api.example.com/v2/widgets?page=2"⟩

/-- Fixture: the URL of page 3 of the three-page provider. -/
def urlP3 : Url := ⟨"https://api.example.com/v2/widgets?page=3"⟩

/-- Fixture: the k-th item served by the three-page provider. -/
def tagN (k : Nat) : Tag := ⟨"item" ++ toString k, Json.null⟩

/-- Fixture: page 1 (items 1–2, cursor to page 2). -/
def pageS1 : Page Tag := ⟨[tagN 1, tagN 2], some urlP2⟩

/-- Fixture: page 2 (items 3–4, cursor to page 3). -/
def pageS2 : Page Tag := ⟨[tagN 3, tagN 4], some urlP3⟩

/-- Fixture: page 3 (item 5, no further cursor). -/
def pageS3 : Page Tag := ⟨[tagN 5], none⟩

/-- Fixture: the three-page provider of §8 as a transport: pages of 2, 2
and 1 items, cursors page1 → page2 → page3 → none.  Bodies are opaque
tokens decoded by `parseS`. -/
def transportS : Transport := fun v u _ =>
  if v = .GET ∧ u = urlP1 then .ok 200 (Json.num 1)
  else if v = .GET ∧ u = urlP2 then .ok 200 (Json.num 2)
  else if v = .GET ∧ u = urlP3 then .ok 200 (Json.num 3)
  else .fail "unexpected call"

/-- Fixture: the envelope mapping decoding the provider's page tokens. -/
def parseS : Json → Except Error (Page Tag) := fun j =>
  match j with
  | .num 1 => .ok pageS1
  | .num 2 => .ok pageS2
  | .num 3 => .ok pageS3
  | _ => .error (.json "bad body")

/-- Fixture: the three-page provider as a cursor chain. -/
def chainS : List (Url × Page Tag) :=
  [(urlP1, pageS1), (urlP2, pageS2), (urlP3, pageS3)]

/-- Fixture: URL of page 1 of a provider whose second page carries a
malformed `next` cursor. -/
def urlC1 : Url := ⟨"https://api.example.com/v2/tags?page=1"⟩

/-- Fixture: URL of page 2 of that provider. -/
def urlC2 : Url := ⟨"https://api.example.com/v2/tags?page=2"⟩

/-- Fixture: a well-formed Tag list envelope whose `links.pages.next`
points at page 2. -/
def bodyC1 : Json :=
  .obj [("tags", .arr [.obj [("name", .str "alpha"), ("resources", .null)]]),
        ("links", .obj [("pages",
          .obj [("next", .str "https://api.example.com/v2/tags?page=2")])]),
        ("meta", .obj [("total", .num 2)])]

/-- Fixture: a Tag list envelope whose `links.pages.next` is present but
not a parseable URL. -/
def bodyC2 : Json :=
  .obj [("tags", .arr [.obj [("name", .str "beta"), ("resources", .null)]]),
        ("links", .obj [("pages", .obj [("next", .str "notaurl")])]),
        ("meta", .obj [("total", .num 2)])]

/-- Fixture: the transport serving `bodyC1` then `bodyC2`. -/
def transportC : Transport := fun v u _ =>
  if v = .GET ∧ u = urlC1 then .ok 200 bodyC1
  else if v = .GET ∧ u = urlC2 then .ok 200 bodyC2
  else .fail "unexpected call"

/-- Fixture: the page obtained from `bodyC1`. -/
def pageC1 : Page Tag := ⟨[⟨"alpha", .null⟩], some urlC2⟩

/-- Fixture: a transport answering every call with 204 No Content. -/
def transportNoContent : Transport := fun _ _ _ => .ok 204 .null

/-- Fixture: a URL used for concrete builder requests. -/
def urlB : Url := ⟨"https://api.example.com/v2/tags/old"⟩

/-- Running the loop unbounded over a complete cursor chain returns every
page's values appended to the accumulator, one GET per page. -/
theorem list_loop_unbounded {V : Type} (t : Transport)
    (parse : Json → Except Error (Page V)) :
    ∀ (rest : List (Url × Page V)) (u : Url) (pg : Page V) (fuel : Nat)
      (acc : List V),
      isChain t parse ((u, pg) :: rest) → lastNext ((u, pg) :: rest) = none →
      rest.length < fuel →
      list_loop t parse fuel u none acc =
        (.ok (acc ++ chainValues ((u, pg) :: rest)),
         chainCalls ((u, pg) :: rest)) := by
  intro rest
  induction rest with
  | nil =>
    intro u pg fuel acc hchain hlast hfuel
    simp only [isChain] at hchain
    obtain ⟨hfetch, -, -⟩ := hchain
    simp only [lastNext] at hlast
    obtain ⟨f, rfl⟩ : ∃ f, fuel = f + 1 := ⟨fuel - 1, by omega⟩
    simp [list_loop, hfetch, hlast, chainValues, chainCalls]
  | cons e tl ih =>
    intro u pg fuel acc hchain hlast hfuel
    obtain ⟨u2, q⟩ := e
    simp only [isChain] at hchain
    obtain ⟨hfetch, hnext, hchain2⟩ := hchain
    obtain ⟨f, rfl⟩ : ∃ f, fuel = f + 1 := ⟨fuel - 1, by omega⟩
    have hrec := ih u2 q f (acc ++ pg.values)
      (by simp only [isChain]; exact hchain2)
      (by simpa only [lastNext] using hlast)
      (by simpa using Nat.lt_of_succ_lt_succ hfuel)
    simp [list_loop, hfetch, hnext, hrec, chainValues, chainCalls,
      List.append_assoc]

/-- Running the loop with limit n over a complete cursor chain returns the
first n values of the chain appended to the accumulator, fetching exactly
the pages needed to exhaust the limit (or the whole chain when it holds
fewer than n values). -/
theorem list_loop_bounded {V : Type} (t : Transport)
    (parse : Json → Except Error (Page V)) :
    ∀ (rest : List (Url × Page V)) (u : Url) (pg : Page V) (n fuel : Nat)
      (acc : List V),
      isChain t parse ((u, pg) :: rest) → lastNext ((u, pg) :: rest) = none →
      rest.length < fuel →
      list_loop t parse fuel u (some n) acc =
        (.ok (acc ++ (chainValues ((u, pg) :: rest)).take n),
         chainCalls (((u, pg) :: rest).take
           (pagesNeeded n ((u, pg) :: rest)))) := by
  intro rest
  induction rest with
  | nil =>
    intro u pg n fuel acc hchain hlast hfuel
    simp only [isChain] at hchain
    obtain ⟨hfetch, -, -⟩ := hchain
    simp only [lastNext] at hlast
    obtain ⟨f, rfl⟩ : ∃ f, fuel = f + 1 := ⟨fuel - 1, by omega⟩
    by_cases hn : n ≤ pg.values.length
    · have hlen : n - (pg.values.take n).length = 0 := by
        have := List.length_take n pg.values
        omega
      simp [list_loop, hfetch, chainValues, chainCalls, pagesNeeded, hn, hlen]
    · have htake : pg.values.take n = pg.values :=
        List.take_of_length_le (by omega)
      have hne : ¬ (n - pg.values.length = 0) := by omega
      simp [list_loop, hfetch, hlast, chainValues, chainCalls, pagesNeeded,
        hn, htake, hne]
  | cons e tl ih =>
    intro u pg n fuel acc hchain hlast hfuel
    obtain ⟨u2, q⟩ := e
    simp only [isChain] at hchain
    obtain ⟨hfetch, hnext, hchain2⟩ := hchain
    obtain ⟨f, rfl⟩ : ∃ f, fuel = f + 1 := ⟨fuel - 1, by omega⟩
    by_cases hn : n ≤ pg.values.length
    · have hlen : n - (pg.values.take n).length = 0 := by
        have := List.length_take n pg.values
        omega
      have hsub : n - pg.values.length = 0 := by omega
      simp [list_loop, hfetch, chainValues, chainCalls, pagesNeeded, hn,
        hlen, hsub, List.take_append_eq_append_take]
    · have htake : pg.values.take n = pg.values :=
        List.take_of_length_le (by omega)
      have hne : ¬ (n - pg.values.length = 0) := by omega
      have hrec := ih u2 q (n - pg.values.length) f (acc ++ pg.values)
        (by simp only [isChain]; exact hchain2)
        (by simpa only [lastNext] using hlast)
        (by simpa using Nat.lt_of_succ_lt_succ hfuel)
      simp [list_loop, hfetch, hnext, hrec, chainValues, chainCalls,
        pagesNeeded, hn, htake, hne, List.take_append_eq_append_take,
        List.append_assoc]

/-- If the fetch of the page at the end of a successful cursor chain fails
(transport failure, non-success status, or deserialization failure —
including a malformed `next` cursor), the loop propagates that error and
surrenders the whole accumulator, provided the limit (when set) is not
exhausted before the failing page is reached. -/
theorem list_loop_error {V : Type} (t : Transport)
    (parse : Json → Except Error (Page V)) :
    ∀ (c : List (Url × Page V)) (u ubad : Url) (e : Error) (rem : Option Nat)
      (acc : List V) (fuel : Nat),
      chainTo t parse u c ubad →
      fetchPage t parse ubad = .error e →
      (∀ n, rem = some n → (chainValues c).length < n) →
      c.length < fuel →
      (list_loop t parse fuel u rem acc).1 = .error e := by
  intro c
  induction c with
  | nil =>
    intro u ubad e rem acc fuel hchain hbad hrem hfuel
    simp only [chainTo] at hchain
    subst hchain
    obtain ⟨f, rfl⟩ : ∃ f, fuel = f + 1 := ⟨fuel - 1, by omega⟩
    simp [list_loop, hbad]
  | cons hd tl ih =>
    intro u ubad e rem acc fuel hchain hbad hrem hfuel
    obtain ⟨u1, p⟩ := hd
    simp only [chainTo] at hchain
    obtain ⟨huu, hfetch, u2, hnext, hchain2⟩ := hchain
    subst huu
    obtain ⟨f, rfl⟩ : ∃ f, fuel = f + 1 := ⟨fuel - 1, by omega⟩
    have hlenc : (chainValues ((u, p) :: tl)).length =
        p.values.length + (chainValues tl).length := by
      simp [chainValues]
    cases rem with
    | none =>
      have hrec := ih u2 ubad e none (acc ++ p.values) f hchain2 hbad
        (by simp) (by simpa using Nat.lt_of_succ_lt_succ hfuel)
      simp [list_loop, hfetch, hnext, hrec]
    | some n =>
      have hn : (chainValues ((u, p) :: tl)).length < n := hrem n rfl
      have htake : p.values.take n = p.values :=
        List.take_of_length_le (by omega)
      have hne : ¬ (n - p.values.length = 0) := by omega
      have hrec := ih u2 ubad e (some (n - p.values.length)) (acc ++ p.values)
        f hchain2 hbad
        (by intro m hm; injection hm with hm; omega)
        (by simpa using Nat.lt_of_succ_lt_succ hfuel)
      simp [list_loop, hfetch, hnext, htake, hne, hrec]

/-- C1: for every List Request with no limit set, executing it returns the
concatenation, in page order and in within-page order, of every page's
values, issuing exactly one GET per page and no further calls after the
page whose `next` cursor is absent. -/
theorem list_execute_no_limit_concatenates {V : Type} (t : Transport)
    (parse : Json → Except Error (Page V)) (r : Request method.List (List V))
    (pg : Page V) (rest : List (Url × Page V)) (fuel : Nat)
    (hchain : isChain t parse ((r.url, pg) :: rest))
    (hlast : lastNext ((r.url, pg) :: rest) = none)
    (hlim : r.method.limit = none)
    (hfuel : rest.length < fuel) :
    Request.execute_list r t parse fuel =
      (.ok (chainValues ((r.url, pg) :: rest)),
       chainCalls ((r.url, pg) :: rest)) := by
  unfold Request.execute_list
  rw [hlim]
  simpa using list_loop_unbounded t parse rest r.url pg fuel [] hchain hlast
    hfuel

/-- Witness for C1: the three-page provider of §8 (pages of 2, 2, 1 items)
with no limit yields the 5 items in original cross-page order with exactly
3 GET calls, one per page, none after page 3 (whose cursor is absent). -/
theorem list_execute_no_limit_concatenates_witness :
    Request.execute_list (Request.new method.List (List Tag) urlP1)
        transportS parseS 3 =
      (.ok [tagN 1, tagN 2, tagN 3, tagN 4, tagN 5],
       [⟨.GET, urlP1, none⟩, ⟨.GET, urlP2, none⟩, ⟨.GET, urlP3, none⟩]) :=
  (list_execute_no_limit_concatenates transportS parseS
      (Request.new method.List (List Tag) urlP1) pageS1
      [(urlP2, pageS2), (urlP3, pageS3)] 3
      ⟨rfl, rfl, rfl, rfl, rfl, trivial, trivial⟩ rfl rfl
      (by decide)).trans rfl

/-- C2: for every List Request with limit n set, executing it returns the
first n values of the chain — length min(n, total available), truncating
only the final fetched page — and fetches exactly the pages needed to
exhaust the limit, never one past it. -/
theorem list_execute_limit_truncates {V : Type} (t : Transport)
    (parse : Json → Except Error (Page V)) (r : Request method.List (List V))
    (pg : Page V) (rest : List (Url × Page V)) (n fuel : Nat)
    (hchain : isChain t parse ((r.url, pg) :: rest))
    (hlast : lastNext ((r.url, pg) :: rest) = none)
    (hlim : r.method.limit = some n)
    (hfuel : rest.length < fuel) :
    Request.execute_list r t parse fuel =
      (.ok ((chainValues ((r.url, pg) :: rest)).take n),
       chainCalls (((r.url, pg) :: rest).take
         (pagesNeeded n ((r.url, pg) :: rest)))) ∧
    ((chainValues ((r.url, pg) :: rest)).take n).length =
      min n (chainValues ((r.url, pg) :: rest)).length := by
  refine ⟨?_, List.length_take ..⟩
  unfold Request.execute_list
  rw [hlim]
  simpa using list_loop_bounded t parse rest r.url pg n fuel [] hchain hlast
    hfuel

/-- Witness for C2: the same three-page provider with limit 3 returns items
1–3 (2 from page 1, 1 from page 2) and performs only 2 GET calls, never
fetching page 3. -/
theorem list_execute_limit_truncates_witness :
    Request.execute_list
        ((Request.new method.List (List Tag) urlP1).limit (some 3))
        transportS parseS 3 =
      (.ok [tagN 1, tagN 2, tagN 3],
       [⟨.GET, urlP1, none⟩, ⟨.GET, urlP2, none⟩]) :=
  ((list_execute_limit_truncates transportS parseS
      ((Request.new method.List (List Tag) urlP1).limit (some 3)) pageS1
      [(urlP2, pageS2), (urlP3, pageS3)] 3 3
      ⟨rfl, rfl, rfl, rfl, rfl, trivial, trivial⟩ rfl rfl
      (by decide)).1).trans rfl

/-- C3: for every List Request, if an iteration of the pagination loop
fails — transport failure, non-success status, or a structural
deserialization failure, which is how a `next` cursor URL that fails to
parse surfaces — the whole execute call returns that error and the caller
receives no partial result (the pages already accumulated are discarded
with the failure). -/
theorem list_execute_error_fail_closed {V : Type} (t : Transport)
    (parse : Json → Except Error (Page V)) (r : Request method.List (List V))
    (c : List (Url × Page V)) (ubad : Url) (e : Error) (fuel : Nat)
    (hchain : chainTo t parse r.url c ubad)
    (hbad : fetchPage t parse ubad = .error e)
    (hrem : ∀ n, r.method.limit = some n → (chainValues c).length < n)
    (hfuel : c.length < fuel) :
    (Request.execute_list r t parse fuel).1 = .error e := by
  unfold Request.execute_list
  exact list_loop_error t parse c r.url ubad e r.method.limit [] fuel hchain
    hbad hrem hfuel

/-- Witness for C3: a provider whose first Tag page parses fine and whose
second page carries `links.pages.next = "notaurl"` — a malformed cursor.
The deserialization of page 2 fails, and even though page 1's item was
already accumulated, the whole call returns the error: a malformed cursor
is terminal, not "no more pages". -/
theorem list_execute_error_fail_closed_witness :
    (Request.execute_list (Request.new method.List (List Tag) urlC1)
        transportC parsePageTag 2).1 =
      .error (.json "relative URL without a base") :=
  list_execute_error_fail_closed transportC parsePageTag
    (Request.new method.List (List Tag) urlC1) [(urlC1, pageC1)] urlC2
    (.json "relative URL without a base") 2
    ⟨rfl, rfl, urlC2, rfl, rfl⟩ rfl
    (fun _ hm => Option.noConfusion hm) (by decide)

/-- C8: over a provider whose cursor chain is finite and acyclic (given
here as a complete chain: successive pages linked by `next`, the last with
no cursor), the pagination loop terminates — in the fuel-bounded model, any
fuel beyond the chain length is never exhausted, because each successful
iteration either exhausts the limit or consumes a `next` cursor, and the
loop stops when the limit reaches zero or the cursor is absent. -/
theorem pagination_terminates {V : Type} (t : Transport)
    (parse : Json → Except Error (Page V)) (r : Request method.List (List V))
    (pg : Page V) (rest : List (Url × Page V)) (fuel : Nat)
    (hchain : isChain t parse ((r.url, pg) :: rest))
    (hlast : lastNext ((r.url, pg) :: rest) = none)
    (hfuel : rest.length < fuel) :
    (Request.execute_list r t parse fuel).1 ≠ .error .outOfFuel := by
  unfold Request.execute_list
  cases hl : r.method.limit with
  | none =>
    rw [list_loop_unbounded t parse rest r.url pg fuel [] hchain hlast hfuel]
    simp
  | some n =>
    rw [list_loop_bounded t parse rest r.url pg n fuel [] hchain hlast hfuel]
    simp

/-- Witness for C8: on the three-page provider, fuel equal to the page
count is not exhausted. -/
theorem pagination_terminates_witness :
    (Request.execute_list (Request.new method.List (List Tag) urlP1)
        transportS parseS 3).1 ≠ .error .outOfFuel :=
  pagination_terminates transportS parseS
    (Request.new method.List (List Tag) urlP1) pageS1
    [(urlP2, pageS2), (urlP3, pageS3)] 3
    ⟨rfl, rfl, rfl, rfl, rfl, trivial, trivial⟩ rfl (by decide)

/-- C4: re-tagging a request to any other (Operation Kind, Result Type)
pair preserves its URL and body unchanged and resets the kind to the new
kind's default value. -/
theorem transmute_preserves_url_body (A R C D : Type) [Method C]
    (r : Request A R) :
    (Request.transmute C D r).url = r.url ∧
    (Request.transmute C D r).body = r.body ∧
    (Request.transmute C D r).method = (Method.default : C) :=
  ⟨rfl, rfl, rfl⟩

/-- C5: executing a Delete-tagged request issues exactly one DELETE call to
the request's URL with no body sent, the stored body never influences the
outcome, and a success status yields the unit value. -/
theorem delete_execute_single_call (t : Transport)
    (r : Request method.Delete Unit) :
    (Request.execute_delete r t).2 = [⟨.DELETE, r.url, none⟩] ∧
    (∀ b, Request.execute_delete (r.set_body b) t =
      Request.execute_delete r t) ∧
    (∀ code body, t .DELETE r.url none = .ok code body →
      200 ≤ code → code < 300 →
      (Request.execute_delete r t).1 = .ok ()) := by
  refine ⟨rfl, fun b => rfl, fun code body hok h1 h2 => ?_⟩
  simp [Request.execute_delete, hok, h1, h2]

/-- C6: envelope unwrapping is a pure extraction of the single named field
of a singular envelope: the HasValue impls for TagResponse and
VolumeResponse project exactly the wrapped value, deserializing a wrapped
Tag and unwrapping yields that Tag back, and at the JSON level the single
named field of a one-field envelope object is recovered exactly. -/
theorem envelope_unwrap_extracts :
    (∀ t : Tag, TagResponse.value ⟨t⟩ = t) ∧
    (∀ v : Volume, VolumeResponse.value ⟨v⟩ = v) ∧
    (∀ t : Tag,
      (TagResponse.fromJson (.obj [("tag", t.toJson)])).map TagResponse.value
        = .ok t) ∧
    (∀ (key : String) (v : Json), (Json.obj [(key, v)]).getField key = some v) := by
  refine ⟨fun t => rfl, fun v => rfl, fun t => rfl, fun key v => ?_⟩
  simp [Json.getField, List.lookup]

/-- C7 (amended): the operation kind of a request is fixed at construction
(`new` installs the kind's default, List's limit being none) and no builder
operation changes which kind a request is tagged with; the List limit is
adjustable through the dedicated `limit` call, and — since that call may be
chained any number of times — after any sequence of builder operations the
stored limit is the argument of the *last* `limit` call in the sequence (or
the prior value when there is none). -/
theorem builder_kind_and_limit_evolution (V : Type) :
    (∀ u : Url, (Request.new method.List V u).method = ⟨none⟩) ∧
    (∀ (r : Request method.List V) (ops : List BuilderOp),
      (applyOps r ops).method = ⟨lastLimit r.method.limit ops⟩) := by
  refine ⟨fun u => rfl, fun r ops => ?_⟩
  induction ops generalizing r with
  | nil => rfl
  | cons op rest ih =>
    cases op with
    | set_url u => exact ih (r.set_url u)
    | set_body b => exact ih (r.set_body b)
    | limit l => exact ih (r.limit l)

/-- Counterexample to C7 as stated: the `limit` builder call consumes and
returns the request, so it can be chained; the sequence
[limit (some 1), limit (some 2)] observably sets the limit twice — first to
some 1, then to some 2 — refuting "no sequence of builder operations can
set the limit more than once". -/
theorem limit_set_twice_counterexample :
    ((Request.new method.List (List Tag) urlB).limit (some 1)).method.limit
      = some 1 ∧
    (((Request.new method.List (List Tag) urlB).limit (some 1)).limit
      (some 2)).method.limit = some 2 ∧
    some (2 : Nat) ≠ some 1 :=
  ⟨rfl, rfl, by simp⟩

/-- Inversion of ApiPages deserialization: a successful parse stores
exactly the deserialization of the "next" field in `next`. -/
theorem ApiPages.fromJson_next (j : Json) (p : ApiPages)
    (h : ApiPages.fromJson j = .ok p) :
    ApiPages.field j "next" = .ok p.next := by
  cases j with
  | obj fields =>
    cases h1 : ApiPages.field (.obj fields) "prev" with
    | error e => simp [ApiPages.fromJson, h1] at h
    | ok a =>
      cases h2 : ApiPages.field (.obj fields) "first" with
      | error e => simp [ApiPages.fromJson, h1, h2] at h
      | ok b =>
        cases h3 : ApiPages.field (.obj fields) "next" with
        | error e => simp [ApiPages.fromJson, h1, h2, h3] at h
        | ok c =>
          cases h4 : ApiPages.field (.obj fields) "last" with
          | error e => simp [ApiPages.fromJson, h1, h2, h3, h4] at h
          | ok d =>
            simp [ApiPages.fromJson, h1, h2, h3, h4] at h
            subst h
            rfl
  | null => simp [ApiPages.fromJson] at h
  | bool b => simp [ApiPages.fromJson] at h
  | num n => simp [ApiPages.fromJson] at h
  | str s => simp [ApiPages.fromJson] at h
  | arr es => simp [ApiPages.fromJson] at h

/-- C9: pagination-metadata extraction treats an absent `pages` object, an
absent `next` field, or a null `next` as "last page" (None), never as an
error; and a next-page URL is produced only when a parseable `next` string
is present. -/
theorem next_page_extraction :
    (∀ l : ApiLinks, l.pages = none → l.next = none) ∧
    (∀ (l : ApiLinks) (p : ApiPages), l.pages = some p → l.next = p.next) ∧
    (∀ r : TagListResponse, r.next_page = r.links.next) ∧
    (∀ fields, (Json.obj fields).getField "pages" = none →
      ApiLinks.fromJson (.obj fields) = .ok ⟨none⟩) ∧
    (∀ (j : Json) (p : ApiPages), ApiPages.fromJson j = .ok p →
      (j.getField "next" = none ∨ j.getField "next" = some .null) →
      p.next = none) ∧
    (∀ (j : Json) (p : ApiPages) (u : Url), ApiPages.fromJson j = .ok p →
      p.next = some u →
      ∃ s, j.getField "next" = some (.str s) ∧ Url.parse s = some u) := by
  refine ⟨?_, ?_, fun r => rfl, ?_, ?_, ?_⟩
  · intro l h
    simp [ApiLinks.next, h]
  · intro l p h
    simp [ApiLinks.next, h]
  · intro fields h
    simp [ApiLinks.fromJson, h]
  · intro j p hok hnull
    have hfield := ApiPages.fromJson_next j p hok
    rcases hnull with h | h <;>
      simp [ApiPages.field, h, url_option_serde.deserialize] at hfield <;>
      exact hfield.symm
  · intro j p u hok hu
    have hfield := ApiPages.fromJson_next j p hok
    rw [hu] at hfield
    unfold ApiPages.field at hfield
    cases hg : j.getField "next" with
    | none => rw [hg] at hfield; simp at hfield
    | some v =>
      rw [hg] at hfield
      cases v with
      | str s =>
        simp [url_option_serde.deserialize] at hfield
        cases hp : Url.parse s with
        | none => rw [hp] at hfield; simp at hfield
        | some u2 =>
          rw [hp] at hfield
          simp at hfield
          subst hfield
          exact ⟨s, rfl, hp⟩
      | null => simp [url_option_serde.deserialize] at hfield
      | bool b => simp [url_option_serde.deserialize] at hfield
      | num n => simp [url_option_serde.deserialize] at hfield
      | arr es => simp [url_option_serde.deserialize] at hfield
      | obj fs => simp [url_option_serde.deserialize] at hfield

/-- C10: the list-execution rule exists only at (List, Vec<V>) tags whose
declared response envelope is paginated; `Tag::list()` produces a request
tagged (List, Tag) — a scalar result type whose only declared envelope is
the singular TagResponse — so no executor dispatch rule applies to it and
it cannot be executed to return a list of tags. -/
theorem tag_list_not_executable :
    requestTag method.List Tag Tag.list = (Kind.List, ResultTy.scalar "Tag") ∧
    executable Kind.List (ResultTy.scalar "Tag") = false ∧
    responsePaginated (ResultTy.scalar "Tag") = false ∧
    hasResponse (ResultTy.scalar "Tag") = true ∧
    (∀ r : ResultTy, executable Kind.List r = true → ∃ s, r = ResultTy.vec s) := by
  refine ⟨rfl, rfl, rfl, rfl, ?_⟩
  intro r h
  cases r with
  | unit => simp [executable] at h
  | scalar s => simp [executable] at h
  | vec s => exact ⟨s, rfl⟩

end DOcean
